import Mathlib

/-!
Shallow embedding of the book-library-playwright test-support library:
the Zod contract layer (src/src/fixtures/auth.fixture.ts and
src/utils/schema-helpers.ts as included at the tail of
src/tests/books/deleteBook.spec.ts), the HTTP clients
(src/src/clients/http.helpers.ts, src/src/clients/books.client.ts and the
hand-rolled client in src/unnamed/part_004) and the services
(src/src/services/books.service.ts, src/src/services/auth.service.ts).

JavaScript values flowing through these functions are JSON values; machine
numbers are modelled as exact rationals (every JSON numeral denotes one).
`Option` models presence/absence (`none` = JS `undefined`); fallible code
returns `Except`.
-/

namespace BookLib

/-- A JSON value. `obj` keeps fields as an association list in insertion
order; lookups take the first occurrence, matching JS objects (which cannot
hold duplicate keys). -/
inductive Json where
  | null
  | bool (b : Bool)
  | num (q : Rat)
  | str (s : String)
  | arr (items : List Json)
  | obj (fields : List (String × Json))

/-- JS truthiness of a JSON value (`null`, `false`, `0` and `""` are falsy;
arrays and objects are always truthy). -/
def jsTruthy : Json → Bool
  | .null => false
  | .bool b => b
  | .num q => q != 0
  | .str s => s != ""
  | .arr _ => true
  | .obj _ => true

/-- JS property access `v[k]` on a JSON value: a key lookup on objects,
`undefined` (`none`) on everything else. -/
def propGet : Json → String → Option Json
  | .obj kvs, k => kvs.lookup k
  | _, _ => none

/-- Truthiness of a possibly-`undefined` JS value. -/
def jsTruthyOpt : Option Json → Bool
  | some v => jsTruthy v
  | none => false

/-- Whether a possibly-`undefined` JS value is nullish (`undefined` or `null`),
as tested by the `??` operator. -/
def jsNullish : Option Json → Bool
  | none => true
  | some .null => true
  | some _ => false

/-- `typeof v === 'object'` for a JSON value: true for objects, arrays and
(a JS quirk) `null`. -/
def typeofIsObject : Json → Bool
  | .null => true
  | .arr _ => true
  | .obj _ => true
  | _ => false

/-- Floor of a nonnegative rational, as a natural number. -/
def ratFloorNat (q : Rat) : Nat :=
  q.num.toNat / q.den

/-- Decimal digits of the fractional part of a rational in `[0, 1)`, with
fuel bounding the number of digits produced (exact for every rational whose
decimal expansion terminates within the fuel, which covers every numeral a
JSON document can carry). -/
def fracDigits : Nat → Rat → String
  | 0, _ => ""
  | fuel + 1, q =>
    if q = 0 then ""
    else
      let q10 := q * 10
      let d := ratFloorNat q10
      toString d ++ fracDigits fuel (q10 - (d : Rat))

/-- The decimal rendering of a JSON number, modelling JavaScript
`Number.prototype.toString`: integers render with no fractional part, other
values as sign, integer part, a dot and the fractional digits. -/
def numToString (q : Rat) : String :=
  if q.den = 1 then toString q.num
  else
    let a := if q < 0 then -q else q
    let ip := ratFloorNat a
    (if q < 0 then "-" else "") ++ toString ip ++ "." ++ fracDigits 40 (a - (ip : Rat))

/-- One validation violation: the path of the offending field and a message. -/
structure Issue where
  path : List String
  message : String
  deriving DecidableEq, Repr

/-- The `received` type name Zod reports for a mismatched value. -/
def typeName : Json → String
  | .null => "null"
  | .bool _ => "boolean"
  | .num _ => "number"
  | .str _ => "string"
  | .arr _ => "array"
  | .obj _ => "object"

/-- A refinement check on a Zod string schema, as used in the repository:
`.min(n)` and `.regex(isbnRegex)`. -/
inductive StrCheck where
  | min (n : Nat)
  | regexIsbn
  deriving DecidableEq, Repr

/-- A refinement check on a Zod number schema, as used in the repository:
`.int()`. -/
inductive NumCheck where
  | int
  deriving DecidableEq, Repr

/-- Membership in the character class `[0-9\s-]` of the ISBN regex in
src/src/fixtures/auth.fixture.ts: an ASCII digit, a hyphen, or a character
matched by the JavaScript regex class `\s`. -/
def isJsWhitespace (c : Char) : Bool :=
  let n := c.toNat
  n == 9 || n == 10 || n == 11 || n == 12 || n == 13 || n == 32 ||
  n == 160 || n == 0x1680 || (0x2000 ≤ n && n ≤ 0x200a) ||
  n == 0x2028 || n == 0x2029 || n == 0x202f || n == 0x205f ||
  n == 0x3000 || n == 0xfeff

/-- A character admitted by the class `[0-9\s-]`. -/
def isbnChar (c : Char) : Bool :=
  c.isDigit || c == '-' || isJsWhitespace c

/-- The test `isbnRegex.test(s)` for `const isbnRegex = /^[0-9\s-]{10,17}$/`:
the whole string is 10 to 17 characters, each from the class `[0-9\s-]`.
(Characters outside the Basic Multilingual Plane fail the class, so the
UTF-16 length used by JavaScript and the codepoint length agree on every
matching string.) -/
def isbnRegexTest (s : String) : Bool :=
  decide (10 ≤ s.length) && decide (s.length ≤ 17) && s.data.all isbnChar

/-- Run one string check, returning the issue Zod attaches on failure
(paths are relative to the value being checked). -/
def runStrCheck (s : String) : StrCheck → Option Issue
  | .min n =>
    if n ≤ s.length then none
    else some ⟨[], "String must contain at least " ++ toString n ++ " character(s)"⟩
  | .regexIsbn =>
    if isbnRegexTest s then none else some ⟨[], "Invalid"⟩

/-- Run one number check. -/
def runNumCheck (q : Rat) : NumCheck → Option Issue
  | .int =>
    if q.den = 1 then none
    else some ⟨[], "Expected integer, received float"⟩

mutual
/-- The Zod schema combinators this repository uses
(src/src/fixtures/auth.fixture.ts): `z.string()` with its checks,
`z.number()` with its checks, `z.boolean()`,
`z.union([z.string(), z.number()]).transform(v => v.toString())` (the `id`
field), and `z.object({...})` over a list of named fields. -/
inductive Schema where
  | string (checks : List StrCheck)
  | number (checks : List NumCheck)
  | boolean
  | idUnion
  | object (fields : Fields)

/-- The fields of a `z.object` shape, in declaration order; `optional` marks
a field wrapped by `.partial()`. -/
inductive Fields where
  | nil
  | cons (name : String) (schema : Schema) (optional : Bool) (rest : Fields)
end

deriving instance DecidableEq for Schema, Fields

mutual
/-- `schema.safeParse(v)` with issue paths relative to `v`: on success the
parsed (possibly transformed) value, on failure every collected issue.
Object parsing validates every declared field before returning (no
short-circuit), strips undeclared keys, and prefixes the field name onto the
paths of issues raised inside that field. -/
def parseJson : Schema → Json → Except (List Issue) Json
  | .string checks, v =>
    match v with
    | .str s =>
      let issues := checks.filterMap (runStrCheck s)
      if issues.isEmpty then .ok (.str s) else .error issues
    | _ => .error [⟨[], "Expected string, received " ++ typeName v⟩]
  | .number checks, v =>
    match v with
    | .num q =>
      let issues := checks.filterMap (runNumCheck q)
      if issues.isEmpty then .ok (.num q) else .error issues
    | _ => .error [⟨[], "Expected number, received " ++ typeName v⟩]
  | .boolean, v =>
    match v with
    | .bool b => .ok (.bool b)
    | _ => .error [⟨[], "Expected boolean, received " ++ typeName v⟩]
  | .idUnion, v =>
    match v with
    | .str s => .ok (.str s)
    | .num q => .ok (.str (numToString q))
    | _ => .error [⟨[], "Invalid input"⟩]
  | .object fl, v =>
    match v with
    | .obj kvs =>
      let res := parseFields fl kvs
      if res.1.isEmpty then .ok (.obj res.2) else .error res.1
    | _ => .error [⟨[], "Expected object, received " ++ typeName v⟩]

/-- Validate the declared fields of an object shape against an association
list: returns the collected issues (in field-declaration order, each
sub-issue path prefixed with its field name) and the parsed output fields. -/
def parseFields : Fields → List (String × Json) → List Issue × List (String × Json)
  | .nil, _ => ([], [])
  | .cons n sch opt rest, kvs =>
    let tail := parseFields rest kvs
    match kvs.lookup n with
    | none =>
      if opt then tail else (⟨[n], "Required"⟩ :: tail.1, tail.2)
    | some x =>
      match parseJson sch x with
      | .ok y => (tail.1, (n, y) :: tail.2)
      | .error es => (es.map (fun i => ⟨n :: i.path, i.message⟩) ++ tail.1, tail.2)
end

/-- `schema.safeParse(v).success` as a boolean. -/
def accepts (sch : Schema) (v : Json) : Bool :=
  match parseJson sch v with
  | .ok _ => true
  | .error _ => false

/-- `.partial()` on the field list: every field becomes optional, keeping its
schema (and hence all type/format constraints on present fields). -/
def Fields.partialAll : Fields → Fields
  | .nil => .nil
  | .cons n sch _ rest => .cons n sch true rest.partialAll

/-- Zod's `.partial()` on an object schema (shallow: only the top-level
fields become optional). -/
def Schema.partialAll : Schema → Schema
  | .object fl => .object fl.partialAll
  | s => s

/-- The declared fields of an object shape, as a list. -/
def Fields.toList : Fields → List (String × Schema × Bool)
  | .nil => []
  | .cons n sch opt rest => (n, sch, opt) :: rest.toList

/-- The declared field names of an object shape. -/
def Fields.names : Fields → List String
  | .nil => []
  | .cons n _ _ rest => n :: rest.names

/-- The field list of `BookSchema` (src/src/fixtures/auth.fixture.ts). -/
def bookFields : Fields :=
  .cons "id" .idUnion false
    (.cons "title" (.string [.min 1]) false
      (.cons "author" (.string [.min 1]) false
        (.cons "isbn" (.string [.regexIsbn]) false
          (.cons "publishedYear" (.number [.int]) false
            (.cons "available" .boolean false .nil)))))

/-- `BookSchema`. -/
def BookSchema : Schema := .object bookFields

/-- The field list of `BookResponseSchema`: the response envelope around a
book. -/
def bookResponseFields : Fields :=
  .cons "success" .boolean false
    (.cons "data" BookSchema false
      (.cons "message" (.string []) false .nil))

/-- `BookResponseSchema`. -/
def BookResponseSchema : Schema := .object bookResponseFields

/-- `PartialBookSchema = BookSchema.partial()`. -/
def PartialBookSchema : Schema := BookSchema.partialAll

/-- `PartialBookResponseSchema = BookResponseSchema.partial()`. -/
def PartialBookResponseSchema : Schema := BookResponseSchema.partialAll

/-- One line of the failure report built by `validateOrThrow`
(src/utils/schema-helpers.ts): `- <path>: <message>`, with `<root>`
standing for an empty joined path. -/
def formatIssue (i : Issue) : String :=
  let p := String.intercalate "." i.path
  "- " ++ (if p = "" then "<root>" else p) ++ ": " ++ i.message

/-- The header line of the failure report; the context label is included
when it is a truthy (nonempty) string. -/
def failureHeader (context : String) : String :=
  if context = "" then "Validation failed:"
  else "Validation failed (" ++ context ++ "):"

/-- `validateOrThrow(schema, value, context)` (src/utils/schema-helpers.ts):
returns the parsed value on success and otherwise throws an `Error` whose
message joins the header and one formatted line per collected issue. -/
def validateOrThrow (sch : Schema) (v : Json) (context : String) : Except String Json :=
  match parseJson sch v with
  | .ok d => .ok d
  | .error issues =>
    .error (String.intercalate "\n" (failureHeader context :: issues.map formatIssue))

/-- An HTTP method, as accepted by `requestRaw`. -/
inductive Method where
  | get | post | put | patch | delete | head
  deriving DecidableEq, Repr

/-- The Playwright request-options object a client hands to the transport:
an optional `data` body and an optional `headers` map. `none` means the key
is absent (or holds `undefined`, which Playwright treats identically). -/
structure ReqOptions where
  data? : Option Json
  headers? : Option (List (String × String))

/-- A fully constructed HTTP request: method, path and options. -/
structure Request where
  method : Method
  path : String
  opts : ReqOptions

/-- JS object-key assignment `o[k] = v` on an association list: replaces the
value of an existing key in place, otherwise appends the new key. -/
def setKey : List (String × String) → String → String → List (String × String)
  | [], k, v => [(k, v)]
  | (k', v') :: rest, k, v =>
    if k' = k then (k', v) :: rest else (k', v') :: setKey rest k v

/-- JS object spread `{...base, ...extra}`: every entry of `extra` is
assigned over `base`, overriding on key collision. -/
def spreadOver (base extra : List (String × String)) : List (String × String) :=
  extra.foldl (fun acc kv => setKey acc kv.1 kv.2) base

/-- `buildHeaders(token?, contentType)` (src/src/clients/http.helpers.ts):
adds `Content-Type` when the content type is truthy (nonempty) and
`Authorization: Bearer <token>` when the token is truthy. -/
def buildHeaders (token? : Option String) (contentType : String) : List (String × String) :=
  (if contentType ≠ "" then [("Content-Type", contentType)] else []) ++
  (match token? with
   | some t => if t ≠ "" then [("Authorization", "Bearer " ++ t)] else []
   | none => [])

/-- `addRequestOptions(data?, token?, headers?)`
(src/src/clients/http.helpers.ts): merges `buildHeaders(token)` with the
extra headers (extra entries override), attaches `data` exactly when it is
not `undefined`, and attaches the headers map when it is nonempty. -/
def addRequestOptions (data? : Option Json) (token? : Option String)
    (headers? : Option (List (String × String))) : ReqOptions :=
  let base := buildHeaders token? "application/json"
  let merged := match headers? with
    | some hs => spreadOver base hs
    | none => base
  ⟨data?, if merged.isEmpty then none else some merged⟩

/-!
The `BooksClient` of src/src/clients/books.client.ts, built on
`addRequestOptions`. Each operation is modelled up to the transport
boundary: it returns the request it hands to the Playwright context.
A `string | number` id is represented by its rendering inside the
template-literal path. -/
namespace BooksClient

/-- `createBook`: POST /books with the payload and optional token. -/
def createBook (payload : Json) (token? : Option String) : Request :=
  ⟨.post, "/books", addRequestOptions (some payload) token? none⟩

/-- `getBookById`: GET /books/:id with no options at all. -/
def getBookById (id : String) : Request :=
  ⟨.get, "/books/" ++ id, ⟨none, none⟩⟩

/-- `updateBook`: PUT /books/:id with the payload and optional token. -/
def updateBook (id : String) (payload : Json) (token? : Option String) : Request :=
  ⟨.put, "/books/" ++ id, addRequestOptions (some payload) token? none⟩

/-- `deleteBook`: DELETE /books/:id, options from
`addRequestOptions(undefined, token)`. -/
def deleteBook (id : String) (token? : Option String) : Request :=
  ⟨.delete, "/books/" ++ id, addRequestOptions none token? none⟩

/-- `patchBook`: PATCH /books/:id with an optional payload. -/
def patchBook (id : String) (payload? : Option Json) (token? : Option String) : Request :=
  ⟨.patch, "/books/" ++ id, addRequestOptions payload? token? none⟩

/-- `requestRaw`: an arbitrary method and path with optional data, token and
extra headers, all passed through `addRequestOptions`. -/
def requestRaw (method : Method) (path : String) (data? : Option Json)
    (token? : Option String) (headers? : Option (List (String × String))) : Request :=
  ⟨method, path, addRequestOptions data? token? headers?⟩

end BooksClient

/-!
The hand-rolled `BooksClient` of src/unnamed/part_004, which builds its
header objects inline instead of calling `addRequestOptions`. -/
namespace BooksClientAlt

/-- `createBook`: headers start as `{'Content-Type': 'application/json'}`
and gain `Authorization` when the token is truthy; `data` and `headers` are
always attached. -/
def createBook (payload : Json) (token? : Option String) : Request :=
  let headers := [("Content-Type", "application/json")]
  let headers := match token? with
    | some t => if t ≠ "" then setKey headers "Authorization" ("Bearer " ++ t) else headers
    | none => headers
  ⟨.post, "/books", ⟨some payload, some headers⟩⟩

/-- `getBookById`: GET /books/:id with no options at all. -/
def getBookById (id : String) : Request :=
  ⟨.get, "/books/" ++ id, ⟨none, none⟩⟩

/-- `updateBook`: same header construction as `createBook`, via PUT. -/
def updateBook (id : String) (payload : Json) (token? : Option String) : Request :=
  let headers := [("Content-Type", "application/json")]
  let headers := match token? with
    | some t => if t ≠ "" then setKey headers "Authorization" ("Bearer " ++ t) else headers
    | none => headers
  ⟨.put, "/books/" ++ id, ⟨some payload, some headers⟩⟩

/-- `deleteBook`: headers start empty and gain only `Authorization` when the
token is truthy; no `Content-Type` is ever attached and no `data` is sent. -/
def deleteBook (id : String) (token? : Option String) : Request :=
  let headers : List (String × String) := []
  let headers := match token? with
    | some t => if t ≠ "" then setKey headers "Authorization" ("Bearer " ++ t) else headers
    | none => headers
  ⟨.delete, "/books/" ++ id, ⟨none, some headers⟩⟩

/-- `patchBook`: headers gain `Authorization` when the token is truthy and
`Content-Type` only when the payload is truthy; `data` carries the payload
(`undefined` when absent). -/
def patchBook (id : String) (payload? : Option Json) (token? : Option String) : Request :=
  let headers : List (String × String) := []
  let headers := match token? with
    | some t => if t ≠ "" then setKey headers "Authorization" ("Bearer " ++ t) else headers
    | none => headers
  let headers :=
    if jsTruthyOpt payload? && ((headers.lookup "Content-Type").isNone) then
      setKey headers "Content-Type" "application/json"
    else headers
  ⟨.patch, "/books/" ++ id, ⟨payload?, some headers⟩⟩

/-- `requestRaw`: copies the caller's headers, assigns `Authorization` over
them when the token is truthy, defaults `Content-Type` when a truthy `data`
is present and none was given, attaches `data` only when truthy, and
attaches the headers map only when nonempty. -/
def requestRaw (method : Method) (path : String) (data? : Option Json)
    (token? : Option String) (headers? : Option (List (String × String))) : Request :=
  let headers := headers?.getD []
  let headers := match token? with
    | some t => if t ≠ "" then setKey headers "Authorization" ("Bearer " ++ t) else headers
    | none => headers
  let headers :=
    if jsTruthyOpt data? && ((headers.lookup "Content-Type").isNone) then
      setKey headers "Content-Type" "application/json"
    else headers
  let dataOut := match data? with
    | some d => if jsTruthy d then some d else none
    | none => none
  ⟨method, path, ⟨dataOut, if headers.isEmpty then none else some headers⟩⟩

end BooksClientAlt

/-- What a Playwright `APIResponse` contributes to the service layer: the
status code, the `ok()` flag, and the result of `res.json()` — `none` when
the raw body fails strict JSON parsing (`res.json().catch(() => null)`). -/
structure HttpResponse where
  status : Nat
  ok : Bool
  body? : Option Json

/-- The body after `await res.json().catch(() => null)`: the parsed JSON
value, or JS `null` when parsing failed. -/
def HttpResponse.body (res : HttpResponse) : Json :=
  res.body?.getD .null

/-- The result `authenticate` returns on its non-throwing path
(src/src/services/auth.service.ts). -/
structure AuthResult where
  status : Nat
  ok : Bool
  body : Json
  token? : Option Json

/-- `authenticate(request, payload)` (src/src/services/auth.service.ts),
modelled from the response it receives: throws
`Login failed: response body is not valid JSON` when the body is falsy or
`typeof body !== 'object'`, and otherwise returns status, ok flag, body and
the body's `token` property. -/
def authenticate (res : HttpResponse) : Except String AuthResult :=
  let body := res.body
  if !jsTruthy body || !typeofIsObject body then
    .error "Login failed: response body is not valid JSON"
  else
    .ok ⟨res.status, res.ok, body, propGet body "token"⟩

/-!
The books service (src/src/services/books.service.ts), modelled from
the response each operation receives back from its client call. -/
namespace BooksService

/-- The result shape of `createBook`, `getBookById` and `updateBook`. -/
structure BookResult where
  status : Nat
  ok : Bool
  body : Json
  book? : Option Json

/-- The result shape of `deleteBook`. -/
structure DeleteResult where
  status : Nat
  ok : Bool
  body : Json
  deletedId? : Option Json

/-- The result shape of `patchBook` and `rawRequest`. -/
structure RawResult where
  status : Nat
  ok : Bool
  body : Json

/-- `createBook`: never throws; `body` is the normalized body and `book` is
`body && body.data ? body.data : undefined`. -/
def createBook (res : HttpResponse) : BookResult :=
  let body := res.body
  ⟨res.status, res.ok, body,
    if jsTruthy body && jsTruthyOpt (propGet body "data") then propGet body "data" else none⟩

/-- `getBookById`: same response processing as `createBook`. -/
def getBookById (res : HttpResponse) : BookResult :=
  let body := res.body
  ⟨res.status, res.ok, body,
    if jsTruthy body && jsTruthyOpt (propGet body "data") then propGet body "data" else none⟩

/-- `updateBook`: same response processing as `createBook`. -/
def updateBook (res : HttpResponse) : BookResult :=
  let body := res.body
  ⟨res.status, res.ok, body,
    if jsTruthy body && jsTruthyOpt (propGet body "data") then propGet body "data" else none⟩

/-- `deleteBook`: `deletedId` is
`(body && (body.deletedId || body.data?.id)) ?? undefined`. -/
def deleteBook (res : HttpResponse) : DeleteResult :=
  let body := res.body
  let inner : Option Json :=
    if jsTruthy body then
      let a := propGet body "deletedId"
      if jsTruthyOpt a then a
      else
        match propGet body "data" with
        | none => none
        | some d => if jsNullish (some d) then none else propGet d "id"
    else some body
  ⟨res.status, res.ok, body, if jsNullish inner then none else inner⟩

/-- `patchBook`: returns status, ok flag and normalized body. -/
def patchBook (res : HttpResponse) : RawResult :=
  ⟨res.status, res.ok, res.body⟩

/-- `rawRequest`: returns status, ok flag and normalized body. -/
def rawRequest (res : HttpResponse) : RawResult :=
  ⟨res.status, res.ok, res.body⟩

end BooksService

/-- The association list of a well-formed book object, with a chosen isbn
string; used to instantiate the schema theorems on concrete inputs. -/
def mkBookKvs (isbn : String) : List (String × Json) :=
  [("id", .num 1), ("title", .str "t"), ("author", .str "a"),
   ("isbn", .str isbn), ("publishedYear", .num 2000), ("available", .bool true)]

/-- The book object with the chosen isbn string. -/
def mkBook (isbn : String) : Json := .obj (mkBookKvs isbn)

/-! Supporting lemmas about the parser. -/

/-- Single-motive structural induction for `Fields` (the mutual recursor of
`Schema`/`Fields` has two motives, which the `induction` tactic rejects). -/
theorem Fields.induct {P : Fields → Prop} (hnil : P .nil)
    (hcons : ∀ n sch opt rest, P rest → P (.cons n sch opt rest)) :
    ∀ fl, P fl
  | .nil => hnil
  | .cons n sch opt rest => hcons n sch opt rest (Fields.induct hnil hcons rest)

/-- A failed parse always carries at least one issue. -/
theorem parseJson_error_ne_nil {sch : Schema} {v : Json} {es : List Issue}
    (h : parseJson sch v = .error es) : es ≠ [] := by
  intro hnil
  subst hnil
  cases sch <;> cases v <;> simp only [parseJson] at h <;> (try split at h) <;>
    simp_all [List.isEmpty_iff] <;>
    (rename_i hex; obtain ⟨c, hc, hne⟩ := hex; exact hne (h c hc))

/-- Making every field optional preserves a successful field pass and its
output. -/
theorem parseFields_partialAll_of_ok {fl : Fields} {kvs : List (String × Json)}
    (h : (parseFields fl kvs).1 = []) :
    parseFields fl.partialAll kvs = ([], (parseFields fl kvs).2) := by
  induction fl using Fields.induct with
  | hnil => rfl
  | hcons n sch opt rest ih =>
    simp only [parseFields, Fields.partialAll] at *
    cases hk : kvs.lookup n with
    | none =>
      simp only [hk] at h ⊢
      cases opt <;> simp_all
    | some x =>
      simp only [hk] at h ⊢
      cases hp : parseJson sch x with
      | ok y => simp_all
      | error es =>
        simp only [hp] at h
        exact absurd h (by simp [parseJson_error_ne_nil hp])

/-- If a declared field is present and its value fails that field's schema,
the field pass reports at least one issue. -/
theorem parseFields_error_of_bad_field {fl : Fields} {kvs : List (String × Json)}
    {n : String} {sch : Schema} {o : Bool} {x : Json} {es : List Issue}
    (hmem : (n, sch, o) ∈ fl.toList) (hlook : kvs.lookup n = some x)
    (hbad : parseJson sch x = .error es) :
    (parseFields fl kvs).1 ≠ [] := by
  induction fl using Fields.induct with
  | hnil => simp [Fields.toList] at hmem
  | hcons m sch' o' rest ih =>
    simp only [Fields.toList, List.mem_cons] at hmem
    simp only [parseFields]
    rcases hmem with heq | hmem
    · injection heq with hn hrest
      injection hrest with hs _
      subst hn; subst hs
      simp only [hlook, hbad]
      have := parseJson_error_ne_nil hbad
      simp_all
    · have htail := ih hmem
      cases hk : kvs.lookup m with
      | none => cases o' <;> simp_all
      | some y => cases hp : parseJson sch' y <;> simp_all

/-- Membership in a field list survives `.partial()` (the schema is kept,
the optional flag becomes true). -/
theorem mem_partialAll {fl : Fields} {n : String} {sch : Schema} {o : Bool}
    (h : (n, sch, o) ∈ fl.toList) : (n, sch, true) ∈ fl.partialAll.toList := by
  induction fl using Fields.induct with
  | hnil => simp [Fields.toList] at h
  | hcons m sch' o' rest ih =>
    simp only [Fields.toList, List.mem_cons, Fields.partialAll] at h ⊢
    rcases h with heq | h
    · injection heq with hn hrest
      injection hrest with hs _
      subst hn; subst hs
      exact Or.inl rfl
    · exact Or.inr (ih h)

/-- The field pass only inspects the lookups of declared names. -/
theorem parseFields_congr_lookup {fl : Fields} {kvs₁ kvs₂ : List (String × Json)}
    (h : ∀ n ∈ fl.names, kvs₁.lookup n = kvs₂.lookup n) :
    parseFields fl kvs₁ = parseFields fl kvs₂ := by
  induction fl using Fields.induct with
  | hnil => rfl
  | hcons m sch o rest ih =>
    simp only [Fields.names, List.mem_cons] at h
    have hm := h m (Or.inl rfl)
    have hrest := ih (fun n hn => h n (Or.inr hn))
    simp only [parseFields, hm, hrest]

/-- The output of the field pass holds only declared names. -/
theorem parseFields_out_lookup_none {fl : Fields} {kvs : List (String × Json)}
    {k : String} (h : k ∉ fl.names) :
    ((parseFields fl kvs).2).lookup k = none := by
  induction fl using Fields.induct with
  | hnil => simp [parseFields]
  | hcons m sch o rest ih =>
    simp only [Fields.names, List.mem_cons, not_or] at h
    obtain ⟨hk, hrest⟩ := h
    simp only [parseFields]
    cases hl : kvs.lookup m with
    | none => cases o <;> simp [hl, ih hrest]
    | some x =>
      cases hp : parseJson sch x with
      | ok y =>
        have hb : (k == m) = false := by simpa using hk
        simp [hl, hp, List.lookup, hb, ih hrest]
      | error es => simp [hl, hp, ih hrest]

/-- Inserting a key distinct from `n` anywhere in an association list leaves
the lookup of `n` unchanged. -/
theorem lookup_insert_ne {pre post : List (String × Json)} {k n : String}
    {x : Json} (h : n ≠ k) :
    (pre ++ (k, x) :: post).lookup n = (pre ++ post).lookup n := by
  have hb : (n == k) = false := by simpa using h
  induction pre with
  | nil => simp [List.lookup, hb]
  | cons hd tl ih => cases hd with
    | mk k' v' => by_cases hk : n = k' <;> simp [List.lookup, hk, ih]

/-- A successful object parse is unchanged by inserting an undeclared key,
and the inserted key never reaches the output. -/
theorem parse_object_insert_unknown {fl : Fields} {pre post : List (String × Json)}
    {k : String} {x b : Json} (hk : k ∉ fl.names)
    (h : parseJson (.object fl) (.obj (pre ++ post)) = .ok b) :
    parseJson (.object fl) (.obj (pre ++ (k, x) :: post)) = .ok b ∧ propGet b k = none := by
  have hcongr : parseFields fl (pre ++ (k, x) :: post) = parseFields fl (pre ++ post) :=
    parseFields_congr_lookup (fun n hn => lookup_insert_ne (fun he => hk (he ▸ hn)))
  simp only [parseJson, hcongr] at h ⊢
  split at h
  case isTrue hemp =>
    injection h with h'
    subst h'
    refine ⟨by simp [hemp], ?_⟩
    simpa [propGet] using parseFields_out_lookup_none hk
  case isFalse => cases h

/-! Supporting lemmas about JS object assignment and spread. -/

/-- Assigning a key makes its lookup return the assigned value. -/
theorem lookup_setKey_self (l : List (String × String)) (k v : String) :
    (setKey l k v).lookup k = some v := by
  induction l with
  | nil => simp [setKey, List.lookup]
  | cons hd tl ih =>
    cases hd with
    | mk a w =>
      by_cases h : a = k
      · subst h; simp [setKey, List.lookup]
      · have hb : (k == a) = false := by simpa using fun he => h he.symm
        simp [setKey, h, List.lookup, hb, ih]

/-- Assigning a key leaves the lookups of other keys unchanged. -/
theorem lookup_setKey_ne {l : List (String × String)} {k k' v : String}
    (h : k' ≠ k) : (setKey l k v).lookup k' = l.lookup k' := by
  induction l with
  | nil =>
    have hb : (k' == k) = false := by simpa using h
    simp [setKey, List.lookup, hb]
  | cons hd tl ih =>
    cases hd with
    | mk a w =>
      by_cases ha : a = k
      · subst ha
        have hb : (k' == a) = false := by simpa using h
        simp [setKey, List.lookup, hb]
      · simp [setKey, ha, List.lookup, ih]

/-- Assignment never empties an object. -/
theorem setKey_ne_nil (l : List (String × String)) (k v : String) :
    setKey l k v ≠ [] := by
  cases l with
  | nil => simp [setKey]
  | cons hd tl =>
    cases hd
    simp only [setKey]
    split <;> simp

/-- Spreading over a nonempty object keeps it nonempty. -/
theorem spreadOver_ne_nil {base : List (String × String)} (h : base ≠ [])
    (hs : List (String × String)) : spreadOver base hs ≠ [] := by
  induction hs generalizing base with
  | nil => simpa [spreadOver]
  | cons kv tl ih =>
    simp only [spreadOver, List.foldl_cons] at *
    exact ih (setKey_ne_nil _ _ _)

/-- An absent key looks up to nothing. -/
theorem lookup_eq_none_of_not_mem_keys {hs : List (String × String)} {k : String}
    (h : k ∉ hs.map Prod.fst) : hs.lookup k = none := by
  induction hs with
  | nil => rfl
  | cons hd tl ih =>
    cases hd with
    | mk a w =>
      simp only [List.map_cons, List.mem_cons, not_or] at h
      have hb : (k == a) = false := by simpa using h.1
      simp [List.lookup, hb, ih h.2]

/-- Looking up a key after a spread with duplicate-free keys: the spread
entries win, the base answers otherwise. -/
theorem spreadOver_lookup {hs : List (String × String)} {k : String}
    (hnd : (hs.map Prod.fst).Nodup) (base : List (String × String)) :
    (spreadOver base hs).lookup k =
      (match hs.lookup k with
       | some v => some v
       | none => base.lookup k) := by
  induction hs generalizing base with
  | nil => simp [spreadOver, List.lookup]
  | cons kv tl ih =>
    cases kv with
    | mk a w =>
      simp only [List.map_cons, List.nodup_cons] at hnd
      obtain ⟨hna, hnd'⟩ := hnd
      have hstep : spreadOver base ((a, w) :: tl) = spreadOver (setKey base a w) tl := rfl
      rw [hstep, ih hnd' (setKey base a w)]
      by_cases hk : k = a
      · subst hk
        have htl : tl.lookup k = none := lookup_eq_none_of_not_mem_keys hna
        simp [htl, List.lookup, lookup_setKey_self]
      · have hb : (k == a) = false := by simpa using hk
        simp [List.lookup, hb, lookup_setKey_ne hk]

/-- The base headers always answer `Content-Type` with the JSON media type. -/
theorem buildHeaders_lookup_ct (token? : Option String) :
    (buildHeaders token? "application/json").lookup "Content-Type" =
      some "application/json" := by
  rcases token? with _ | t
  · rfl
  · by_cases ht : t = "" <;> simp [buildHeaders, ht, List.lookup]

/-- The base headers answer `Authorization` with the bearer token exactly
when a truthy token was given. -/
theorem buildHeaders_lookup_auth (token? : Option String) :
    (buildHeaders token? "application/json").lookup "Authorization" =
      (match token? with
       | some t => if t = "" then none else some ("Bearer " ++ t)
       | none => none) := by
  rcases token? with _ | t
  · rfl
  · by_cases ht : t = "" <;> simp [buildHeaders, ht, List.lookup]

/-- The base headers hold nothing besides `Content-Type` and
`Authorization`. -/
theorem buildHeaders_lookup_other {k : String} (h1 : k ≠ "Content-Type")
    (h2 : k ≠ "Authorization") (token? : Option String) :
    (buildHeaders token? "application/json").lookup k = none := by
  have b1 : (k == "Content-Type") = false := by simpa using h1
  have b2 : (k == "Authorization") = false := by simpa using h2
  rcases token? with _ | t
  · simp [buildHeaders, List.lookup, b1]
  · by_cases ht : t = "" <;> simp [buildHeaders, ht, List.lookup, b1, b2]

/-- The base headers are never empty. -/
theorem buildHeaders_ne_nil (token? : Option String) :
    buildHeaders token? "application/json" ≠ [] := by
  rcases token? with _ | t <;> simp [buildHeaders]

/-! The claims. -/

/-- C1: for every schema and candidate value, `validateOrThrow` either
returns the parsed value or throws an `Error` whose message lists every
violated (path, message) pair produced by the validation, one line
`- <path>: <message>` per pair (`<root>` for an empty path), after the
header `Validation failed (<context>):` when the context label is nonempty
and `Validation failed:` otherwise; in particular a body missing the two
required fields `data` and `message` of `BookResponseSchema` yields a
message enumerating both. -/
theorem validateOrThrow_reports_every_issue :
    (∀ (sch : Schema) (v : Json) (ctx : String),
      (∃ d, parseJson sch v = .ok d ∧ validateOrThrow sch v ctx = .ok d) ∨
      (∃ issues, parseJson sch v = .error issues ∧ issues ≠ [] ∧
        validateOrThrow sch v ctx =
          .error (String.intercalate "\n"
            (failureHeader ctx :: issues.map formatIssue)))) ∧
    validateOrThrow BookResponseSchema (.obj [("success", .bool true)]) "createBook response" =
      .error "Validation failed (createBook response):\n- data: Required\n- message: Required" := by
  constructor
  · intro sch v ctx
    cases hp : parseJson sch v with
    | ok d => exact Or.inl ⟨d, rfl, by simp [validateOrThrow, hp]⟩
    | error issues =>
      exact Or.inr ⟨issues, rfl, parseJson_error_ne_nil hp, by simp [validateOrThrow, hp]⟩
  · rfl

/-- C2 counterexample: a string of ten tab characters is accepted as the
isbn of `BookSchema` (the regex class `\s` matches any JavaScript
whitespace), although it does not consist solely of digits, hyphens and
spaces — refuting the claimed characterization. -/
theorem bookSchema_isbn_space_only_cex :
    accepts BookSchema (mkBook (String.mk (List.replicate 10 '\t'))) = true ∧
    (String.mk (List.replicate 10 '\t')).data.all
      (fun c => c.isDigit || c == '-' || c == ' ') = false := by
  exact ⟨rfl, rfl⟩

/-- C2 (amended): the isbn field of `BookSchema` accepts a string iff its
length is between 10 and 17 inclusive and it consists solely of digits,
hyphens, and JavaScript whitespace characters (the regex class `\s`: space,
tab, newline and the other Unicode whitespace). -/
theorem bookSchema_isbn_accepts_iff (s : String) :
    accepts BookSchema (mkBook s) = true ↔
      (10 ≤ s.length ∧ s.length ≤ 17 ∧
        ∀ c ∈ s.data, (c.isDigit = true ∨ c = '-' ∨ isJsWhitespace c = true)) := by
  have ht : runStrCheck "t" (.min 1) = none := rfl
  have ha : runStrCheck "a" (.min 1) = none := rfl
  have hy : runNumCheck 2000 .int = none := rfl
  have hred : accepts BookSchema (mkBook s) = isbnRegexTest s := by
    cases h : isbnRegexTest s with
    | false =>
      have hr : runStrCheck s .regexIsbn = some ⟨[], "Invalid"⟩ := by simp [runStrCheck, h]
      simp [accepts, parseJson, parseFields, mkBook, mkBookKvs, BookSchema, bookFields,
        List.lookup, hr, ht, ha, hy]
    | true =>
      have hr : runStrCheck s .regexIsbn = none := by simp [runStrCheck, h]
      simp [accepts, parseJson, parseFields, mkBook, mkBookKvs, BookSchema, bookFields,
        List.lookup, hr, ht, ha, hy]
  rw [hred]
  simp [isbnRegexTest, List.all_eq_true, isbnChar, Bool.or_eq_true, beq_iff_eq, or_assoc,
    and_assoc]

/-- C3 counterexample: a response whose body parses to a JSON array — which
is not a JSON object — does not make `authenticate` throw: JavaScript
`typeof` calls arrays objects, so `authenticate` returns normally with no
token, refuting the claimed iff. -/
theorem authenticate_array_body_cex :
    authenticate ⟨200, true, some (.arr [])⟩ = .ok ⟨200, true, .arr [], none⟩ := rfl

/-- C3 (amended): `authenticate` throws the error
`Login failed: response body is not valid JSON` iff the parsed body is
absent/null or a primitive (string, number or boolean); it returns
`{status, ok, body, token}` for every object body — with `token` the body's
`token` field — and also for every array body (arrays pass the `typeof`
check and have no `token` field), regardless of HTTP status. -/
theorem authenticate_spec :
    (∀ (res : HttpResponse) (kvs : List (String × Json)),
      res.body? = some (.obj kvs) →
      authenticate res = .ok ⟨res.status, res.ok, .obj kvs, kvs.lookup "token"⟩) ∧
    (∀ (res : HttpResponse) (xs : List Json),
      res.body? = some (.arr xs) →
      authenticate res = .ok ⟨res.status, res.ok, .arr xs, none⟩) ∧
    (∀ res : HttpResponse,
      (∀ kvs, res.body? ≠ some (.obj kvs)) → (∀ xs, res.body? ≠ some (.arr xs)) →
      authenticate res = .error "Login failed: response body is not valid JSON") := by
  refine ⟨?_, ?_, ?_⟩
  · intro res kvs h
    simp [authenticate, HttpResponse.body, h, jsTruthy, typeofIsObject, propGet]
  · intro res xs h
    simp [authenticate, HttpResponse.body, h, jsTruthy, typeofIsObject, propGet]
  · intro res h1 h2
    cases hres : res.body? with
    | none => simp [authenticate, HttpResponse.body, hres, jsTruthy, typeofIsObject]
    | some b =>
      cases b with
      | obj kvs => exact absurd hres (h1 kvs)
      | arr xs => exact absurd hres (h2 xs)
      | null => simp [authenticate, HttpResponse.body, hres, jsTruthy, typeofIsObject]
      | bool v =>
        cases v <;> simp [authenticate, HttpResponse.body, hres, jsTruthy, typeofIsObject]
      | num q => simp [authenticate, HttpResponse.body, hres, jsTruthy, typeofIsObject]
      | str s => simp [authenticate, HttpResponse.body, hres, jsTruthy, typeofIsObject]

/-- C3 witness: an object body with a token field at a concrete response. -/
theorem authenticate_spec_witness :
    authenticate ⟨200, true, some (.obj [("token", .str "abc")])⟩ =
      .ok ⟨200, true, .obj [("token", .str "abc")], some (.str "abc")⟩ :=
  authenticate_spec.1 ⟨200, true, some (.obj [("token", .str "abc")])⟩
    [("token", .str "abc")] rfl

/-- C4: every books domain operation, handed a response whose raw body
failed JSON parsing, returns normally (the model functions are total) with
the normalized body `null`. -/
theorem books_service_null_body_on_parse_failure (res : HttpResponse)
    (h : res.body? = none) :
    (BooksService.createBook res).body = .null ∧
    (BooksService.getBookById res).body = .null ∧
    (BooksService.updateBook res).body = .null ∧
    (BooksService.deleteBook res).body = .null ∧
    (BooksService.patchBook res).body = .null ∧
    (BooksService.rawRequest res).body = .null := by
  simp [BooksService.createBook, BooksService.getBookById, BooksService.updateBook,
    BooksService.deleteBook, BooksService.patchBook, BooksService.rawRequest,
    HttpResponse.body, h]

/-- C4 witness: a concrete 502 response with an unparseable body. -/
theorem books_service_null_body_on_parse_failure_witness :
    (BooksService.createBook ⟨502, false, none⟩).body = .null ∧
    (BooksService.getBookById ⟨502, false, none⟩).body = .null ∧
    (BooksService.updateBook ⟨502, false, none⟩).body = .null ∧
    (BooksService.deleteBook ⟨502, false, none⟩).body = .null ∧
    (BooksService.patchBook ⟨502, false, none⟩).body = .null ∧
    (BooksService.rawRequest ⟨502, false, none⟩).body = .null :=
  books_service_null_body_on_parse_failure ⟨502, false, none⟩ rfl

/-- C5 counterexample: a body that is a non-null object containing a `data`
field whose value is `false` yields an absent `book` — the code requires
`body.data` to be truthy, not merely present — refuting the claimed
characterization. -/
theorem bookResult_falsy_data_cex :
    (BooksService.createBook ⟨200, true, some (.obj [("data", .bool false)])⟩).book? = none ∧
    propGet (.obj [("data", .bool false)]) "data" = some (.bool false) := ⟨rfl, rfl⟩

/-- C5 (amended): for `createBook`, `getBookById` and `updateBook`, the
returned `book` equals the body's `data` field exactly when the normalized
body is truthy and its `data` field is present and truthy; in every other
case — including a present but falsy `data` such as `false`, `0`, `""` or
`null` — it is absent, without any error. -/
theorem book_extraction_iff (res : HttpResponse) (d : Json) :
    ((BooksService.createBook res).book? = some d ↔
      (jsTruthy res.body = true ∧ propGet res.body "data" = some d ∧ jsTruthy d = true)) ∧
    ((BooksService.getBookById res).book? = some d ↔
      (jsTruthy res.body = true ∧ propGet res.body "data" = some d ∧ jsTruthy d = true)) ∧
    ((BooksService.updateBook res).book? = some d ↔
      (jsTruthy res.body = true ∧ propGet res.body "data" = some d ∧ jsTruthy d = true)) := by
  have key : ∀ (body d : Json),
      ((if jsTruthy body && jsTruthyOpt (propGet body "data") then propGet body "data"
        else none) = some d) ↔
        (jsTruthy body = true ∧ propGet body "data" = some d ∧ jsTruthy d = true) := by
    intro body d
    constructor
    · intro hd
      by_cases hcond : (jsTruthy body && jsTruthyOpt (propGet body "data")) = true
      · rw [if_pos hcond] at hd
        rw [Bool.and_eq_true] at hcond
        obtain ⟨h1, h2⟩ := hcond
        refine ⟨h1, hd, ?_⟩
        rw [hd] at h2
        simpa [jsTruthyOpt] using h2
      · rw [if_neg hcond] at hd
        cases hd
    · rintro ⟨h1, hd, htd⟩
      have h2 : jsTruthyOpt (propGet body "data") = true := by
        rw [hd]
        simpa [jsTruthyOpt] using htd
      rw [if_pos (by simp [h1, h2])]
      exact hd
  exact ⟨key res.body d, key res.body d, key res.body d⟩

/-- C6: a value accepted by `BookSchema` comes back with its `id`
canonicalized to a string — the string itself for a string id, the decimal
rendering for a numeric id — so equal identifiers compare equal on the
parsed `id` field. -/
theorem bookSchema_id_canonical (kvs : List (String × Json)) (b : Json)
    (h : parseJson BookSchema (.obj kvs) = .ok b) :
    ∃ i, kvs.lookup "id" = some i ∧
      ((∃ s, i = .str s ∧ propGet b "id" = some (.str s)) ∨
       (∃ q, i = .num q ∧ propGet b "id" = some (.str (numToString q)))) := by
  simp only [BookSchema, parseJson] at h
  split at h
  case isFalse => cases h
  case isTrue hemp =>
  injection h with h'
  subst h'
  simp only [bookFields, parseFields] at hemp ⊢
  cases hid : kvs.lookup "id" with
  | none => simp [hid] at hemp
  | some i =>
    refine ⟨i, rfl, ?_⟩
    cases i with
    | str s =>
      simp only [hid, parseJson] at hemp ⊢
      exact Or.inl ⟨s, rfl, by simp [propGet, List.lookup]⟩
    | num q =>
      simp only [hid, parseJson] at hemp ⊢
      exact Or.inr ⟨q, rfl, by simp [propGet, List.lookup]⟩
    | null => simp [hid, parseJson] at hemp
    | bool v => simp [hid, parseJson] at hemp
    | arr xs => simp [hid, parseJson] at hemp
    | obj f => simp [hid, parseJson] at hemp

/-- C6 witness: the numeric id 1 parses to the string "1" in a concrete
valid book object. -/
theorem bookSchema_id_canonical_witness :
    ∃ i, (mkBookKvs "123-4567890").lookup "id" = some i ∧
      ((∃ s, i = .str s ∧
        propGet (.obj [("id", .str "1"), ("title", .str "t"), ("author", .str "a"),
          ("isbn", .str "123-4567890"), ("publishedYear", .num 2000),
          ("available", .bool true)]) "id" = some (.str s)) ∨
       (∃ q, i = .num q ∧
        propGet (.obj [("id", .str "1"), ("title", .str "t"), ("author", .str "a"),
          ("isbn", .str "123-4567890"), ("publishedYear", .num 2000),
          ("available", .bool true)]) "id" = some (.str (numToString q)))) :=
  bookSchema_id_canonical (mkBookKvs "123-4567890")
    (.obj [("id", .str "1"), ("title", .str "t"), ("author", .str "a"),
      ("isbn", .str "123-4567890"), ("publishedYear", .num 2000),
      ("available", .bool true)]) (by rfl)

/-- C7: `PartialBookSchema` is the partial form of `BookSchema`: every value
accepted by `BookSchema` is accepted by `PartialBookSchema`; the empty
object is accepted; and an object one of whose present fields fails that
field's `BookSchema` constraint is rejected even though all fields are
optional. -/
theorem partialBookSchema_spec :
    (∀ (v b : Json), parseJson BookSchema v = .ok b →
      accepts PartialBookSchema v = true) ∧
    (parseJson PartialBookSchema (.obj []) = .ok (.obj [])) ∧
    (∀ (kvs : List (String × Json)) (n : String) (sch : Schema) (o : Bool)
        (x : Json) (es : List Issue),
      (n, sch, o) ∈ bookFields.toList → kvs.lookup n = some x →
      parseJson sch x = .error es →
      accepts PartialBookSchema (.obj kvs) = false) := by
  refine ⟨?_, rfl, ?_⟩
  · intro v b h
    cases v with
    | obj kvs =>
      simp only [BookSchema, parseJson] at h
      split at h
      case isFalse => cases h
      case isTrue hemp =>
      have hout := parseFields_partialAll_of_ok (List.isEmpty_iff.mp hemp)
      simp [accepts, PartialBookSchema, Schema.partialAll, BookSchema, parseJson, hout]
    | null => simp [BookSchema, parseJson] at h
    | bool v => simp [BookSchema, parseJson] at h
    | num q => simp [BookSchema, parseJson] at h
    | str s => simp [BookSchema, parseJson] at h
    | arr xs => simp [BookSchema, parseJson] at h
  · intro kvs n sch o x es hmem hlook hbad
    have h2 := parseFields_error_of_bad_field (mem_partialAll hmem) hlook hbad
    have h3 : ¬ ((parseFields bookFields.partialAll kvs).1.isEmpty = true) :=
      fun hh => h2 (List.isEmpty_iff.mp hh)
    simp only [accepts, PartialBookSchema, Schema.partialAll, BookSchema, parseJson]
    rw [if_neg h3]

/-- C7 witness: an object holding only a malformed isbn is rejected by
`PartialBookSchema`. -/
theorem partialBookSchema_spec_witness :
    accepts PartialBookSchema (.obj [("isbn", .str "978")]) = false :=
  partialBookSchema_spec.2.2 [("isbn", .str "978")] "isbn" (.string [.regexIsbn])
    false (.str "978") [⟨[], "Invalid"⟩] (by decide) rfl rfl

/-- C8: adding an extra field with an undeclared key anywhere in an object
accepted by `BookSchema` or `BookResponseSchema` leaves validation
successful with the same parsed result, and the extra key is absent from
that result. -/
theorem schemas_ignore_unknown_fields
    (pre post : List (String × Json)) (k : String) (x b : Json) :
    (k ∉ bookFields.names →
      parseJson BookSchema (.obj (pre ++ post)) = .ok b →
      parseJson BookSchema (.obj (pre ++ (k, x) :: post)) = .ok b ∧
        propGet b k = none) ∧
    (k ∉ bookResponseFields.names →
      parseJson BookResponseSchema (.obj (pre ++ post)) = .ok b →
      parseJson BookResponseSchema (.obj (pre ++ (k, x) :: post)) = .ok b ∧
        propGet b k = none) :=
  ⟨fun hk h => parse_object_insert_unknown hk h,
   fun hk h => parse_object_insert_unknown hk h⟩

/-- C8 witness: prepending an undeclared `extra` field to a concrete valid
book leaves the parse result unchanged and without the extra key. -/
theorem schemas_ignore_unknown_fields_witness :
    parseJson BookSchema (.obj (("extra", .num 5) :: mkBookKvs "123-4567890")) =
      .ok (.obj [("id", .str "1"), ("title", .str "t"), ("author", .str "a"),
        ("isbn", .str "123-4567890"), ("publishedYear", .num 2000),
        ("available", .bool true)]) ∧
    propGet (.obj [("id", .str "1"), ("title", .str "t"), ("author", .str "a"),
      ("isbn", .str "123-4567890"), ("publishedYear", .num 2000),
      ("available", .bool true)]) "extra" = none :=
  (schemas_ignore_unknown_fields [] (mkBookKvs "123-4567890") "extra" (.num 5)
    (.obj [("id", .str "1"), ("title", .str "t"), ("author", .str "a"),
      ("isbn", .str "123-4567890"), ("publishedYear", .num 2000),
      ("available", .bool true)])).1 (by decide) rfl

/-- C9 counterexample: on `deleteBook` the two clients build different
options — the helper-based client always sends
`Content-Type: application/json` while the hand-rolled one sends an empty
header map — refuting the claimed equivalence. -/
theorem booksClients_deleteBook_cex :
    (BooksClient.deleteBook "1" none).opts.headers? =
      some [("Content-Type", "application/json")] ∧
    (BooksClientAlt.deleteBook "1" none).opts.headers? = some [] ∧
    (BooksClient.deleteBook "1" none).opts.headers? ≠
      (BooksClientAlt.deleteBook "1" none).opts.headers? := by
  refine ⟨rfl, rfl, by decide⟩

/-- C9 (amended): the two `BooksClient` implementations agree on
`createBook`, `getBookById` and `updateBook` for every input, but differ on
`deleteBook` (Content-Type presence), on `patchBook` without a payload
(Content-Type presence) and on `requestRaw` (Content-Type defaulting and
header attachment). -/
theorem booksClients_agreement :
    (∀ (payload : Json) (token? : Option String),
      BooksClient.createBook payload token? = BooksClientAlt.createBook payload token?) ∧
    (∀ id : String, BooksClient.getBookById id = BooksClientAlt.getBookById id) ∧
    (∀ (id : String) (payload : Json) (token? : Option String),
      BooksClient.updateBook id payload token? = BooksClientAlt.updateBook id payload token?) ∧
    BooksClient.deleteBook "1" none ≠ BooksClientAlt.deleteBook "1" none ∧
    BooksClient.patchBook "1" none none ≠ BooksClientAlt.patchBook "1" none none ∧
    BooksClient.requestRaw .get "/books" none none none ≠
      BooksClientAlt.requestRaw .get "/books" none none none := by
  refine ⟨?_, fun id => rfl, ?_, ?_, ?_, ?_⟩
  · intro payload token?
    rcases token? with _ | t
    · rfl
    · by_cases ht : t = "" <;>
        simp [BooksClient.createBook, BooksClientAlt.createBook, addRequestOptions,
          buildHeaders, setKey, ht]
  · intro id payload token?
    rcases token? with _ | t
    · rfl
    · by_cases ht : t = "" <;>
        simp [BooksClient.updateBook, BooksClientAlt.updateBook, addRequestOptions,
          buildHeaders, setKey, ht]
  · intro h
    simp [BooksClient.deleteBook, BooksClientAlt.deleteBook, addRequestOptions,
      buildHeaders] at h
  · intro h
    simp [BooksClient.patchBook, BooksClientAlt.patchBook, addRequestOptions,
      buildHeaders, jsTruthyOpt] at h
  · intro h
    simp [BooksClient.requestRaw, BooksClientAlt.requestRaw, addRequestOptions,
      buildHeaders, jsTruthyOpt] at h

/-- C10 counterexample: an extra `Content-Type` header overrides the base
one, so the produced headers do not include
`Content-Type: application/json` — the two halves of the claim contradict
each other on colliding keys. -/
theorem addRequestOptions_override_cex :
    ((addRequestOptions none none
        (some [("Content-Type", "text/plain")])).headers?.getD []).lookup "Content-Type" =
      some "text/plain" ∧ ("text/plain" : String) ≠ "application/json" :=
  ⟨rfl, by decide⟩

/-- C10 (amended): `addRequestOptions` attaches `data` exactly when it is
not undefined; its headers map answers `Content-Type` with
`application/json` unless an extra header overrides it, answers
`Authorization` with `Bearer <token>` exactly when a truthy token is given
and no extra `Authorization` header overrides it, and answers every other
key exactly as the extra headers do. -/
theorem addRequestOptions_spec (data? : Option Json) (token? : Option String)
    (extra : List (String × String)) (hnd : (extra.map Prod.fst).Nodup) :
    (addRequestOptions data? token? (some extra)).data? = data? ∧
    ∃ m, (addRequestOptions data? token? (some extra)).headers? = some m ∧
      m.lookup "Content-Type" = some ((extra.lookup "Content-Type").getD "application/json") ∧
      m.lookup "Authorization" =
        (match extra.lookup "Authorization" with
         | some v => some v
         | none =>
           match token? with
           | some t => if t = "" then none else some ("Bearer " ++ t)
           | none => none) ∧
      (∀ k, k ≠ "Content-Type" → k ≠ "Authorization" →
        m.lookup k = extra.lookup k) := by
  have hne : spreadOver (buildHeaders token? "application/json") extra ≠ [] :=
    spreadOver_ne_nil (buildHeaders_ne_nil token?) extra
  have hif : (spreadOver (buildHeaders token? "application/json") extra).isEmpty = false := by
    simpa [List.isEmpty_iff] using hne
  refine ⟨rfl, spreadOver (buildHeaders token? "application/json") extra,
    by simp [addRequestOptions, hif], ?_, ?_, ?_⟩
  · rw [spreadOver_lookup hnd]
    cases hct : extra.lookup "Content-Type" <;> simp [hct, buildHeaders_lookup_ct]
  · rw [spreadOver_lookup hnd]
    cases hau : extra.lookup "Authorization" <;> simp [hau, buildHeaders_lookup_auth]
  · intro k hk1 hk2
    rw [spreadOver_lookup hnd]
    cases hk : extra.lookup k <;> simp [hk, buildHeaders_lookup_other hk1 hk2]

/-- C10 witness: concrete data, token and a non-colliding extra header. -/
theorem addRequestOptions_spec_witness :
    (addRequestOptions (some (.obj [])) (some "tok")
        (some [("X-Trace", "1")])).data? = some (.obj []) ∧
    ∃ m, (addRequestOptions (some (.obj [])) (some "tok")
        (some [("X-Trace", "1")])).headers? = some m ∧
      m.lookup "Content-Type" =
        some (([("X-Trace", "1")].lookup "Content-Type").getD "application/json") ∧
      m.lookup "Authorization" =
        (match [("X-Trace", "1")].lookup "Authorization" with
         | some v => some v
         | none =>
           match (some "tok" : Option String) with
           | some t => if t = "" then none else some ("Bearer " ++ t)
           | none => none) ∧
      (∀ k, k ≠ "Content-Type" → k ≠ "Authorization" →
        m.lookup k = [("X-Trace", "1")].lookup k) :=
  addRequestOptions_spec (some (.obj [])) (some "tok") [("X-Trace", "1")] (by decide)

end BookLib
